import Mathlib

set_option autoImplicit false
set_option linter.unusedVariables false

/-!
Verification development for the scraping engine in `src/server/scraper.js`
of the app.skillarly repository.  The JavaScript is embedded shallowly:
the in-page DOM queries become functions over an abstract document, the
orchestration of `scrapeLinkedInProfile` becomes a function from an
execution environment (which step throws, the random delay, the page
content) to an effect trace paired with an outcome, and the rate limiter
becomes a small-step state machine over timed events.
-/

namespace Skillarly

/-- A DOM element, reduced to what the scraper reads: its text content and
its attribute list.  In a real document `textContent` of an element is never
null, so it is a plain string here. -/
structure Element where
  textContent : String
  attrs : List (String × String)
  deriving DecidableEq, Repr

/-- Model of `String.prototype.trim()`: whitespace removed from both ends.
It is realized over the character list so that terms involving it evaluate
by kernel reduction. -/
def jsTrim (s : String) : String :=
  String.mk (((s.data.dropWhile Char.isWhitespace).reverse.dropWhile
    Char.isWhitespace).reverse)

/-- Model of `element.getAttribute(name)`: the attribute value, or `none`
when the attribute is absent. -/
def Element.getAttribute (e : Element) (attr : String) : Option String :=
  (e.attrs.find? (fun p => p.1 == attr)).map (fun p => p.2)

/-- A document, abstracted as the list of elements `querySelectorAll`
returns for each selector string, in document order. -/
structure Dom where
  elems : String → List Element

/-- Model of `document.querySelector`: the first element matching the
selector, if any. -/
def Dom.querySelector (d : Dom) (s : String) : Option Element :=
  (d.elems s).head?

/-- Embeds `getTextBySelectors` (scraper.js lines 57-65): selectors are
tried in order; the first selector that matches an element returns that
trimmed text of that element (the source writes `textContent?.trim() || ''`,
which for a real element is exactly the trimmed text, possibly empty);
when no selector matches any element the result is null. -/
def getTextBySelectors (dom : Dom) : List String → Option String
  | [] => none
  | s :: rest =>
    match dom.querySelector s with
    | some e => some (jsTrim e.textContent)
    | none => getTextBySelectors dom rest

/-- One insertion into a JavaScript `Set`, represented as an
insertion-ordered duplicate-free list. -/
def setAdd (acc : List String) (t : String) : List String :=
  if t ∈ acc then acc else acc ++ [t]

/-- Embeds `getAllTextsBySelectors` (scraper.js lines 68-78): for every
selector, the trimmed text of every matching element is added to a `Set` when
it is truthy (non-empty); the result is the set in insertion order. -/
def getAllTextsBySelectors (dom : Dom) (selectors : List String) : List String :=
  selectors.foldl
    (fun acc s =>
      (dom.elems s).foldl
        (fun acc2 e =>
          let text := jsTrim e.textContent
          if text = "" then acc2 else setAdd acc2 text)
        acc)
    []

/-- Embeds `getAttributeBySelectors` (scraper.js lines 81-90): selectors
are tried in order; when a selector matches an element and the attribute
of that element is truthy (present and non-empty) it is returned, otherwise the
iteration continues with the next selector; null when nothing is found. -/
def getAttributeBySelectors (dom : Dom) : List String → String → Option String
  | [], _ => none
  | s :: rest, attr =>
    match dom.querySelector s with
    | some e =>
      match e.getAttribute attr with
      | some a => if a = "" then getAttributeBySelectors dom rest attr else some a
      | none => getAttributeBySelectors dom rest attr
    | none => getAttributeBySelectors dom rest attr

/-- Name selector candidates (scraper.js lines 93-102). -/
def nameSelectors : List String :=
  [".text-heading-xlarge",
   ".pv-text-details__left-panel h1",
   ".top-card-layout__title",
   ".pv-top-card--list h1",
   "h1[data-generated-suggestion-target]",
   ".ph5 h1",
   ".pv-top-card__photo + div h1",
   "[data-anonymize=\"person-name\"]"]

/-- Title selector candidates (scraper.js lines 106-113). -/
def titleSelectors : List String :=
  [".text-body-medium.break-words",
   ".pv-text-details__left-panel .text-body-medium",
   ".top-card-layout__headline",
   ".pv-top-card--list .text-body-medium",
   ".pv-text-details__left-panel .pv-shared-text-with-see-more",
   ".ph5 .text-body-medium"]

/-- Location selector candidates (scraper.js lines 117-123). -/
def locationSelectors : List String :=
  [".text-body-small.inline.t-black--light.break-words",
   ".pv-text-details__left-panel .pv-text-details__left-panel-item .text-body-small",
   ".top-card-layout__first-subline",
   ".pv-top-card--list .pv-top-card--list-bullet",
   ".ph5 .text-body-small"]

/-- Skill selector candidates (scraper.js lines 127-135). -/
def skillSelectors : List String :=
  [".skill-entity__skill-name",
   ".pvs-skill__skill-name",
   ".skill-category-entity__skill-name",
   "[data-field=\"skill_name\"]",
   ".skill-name",
   ".pvs-list__item .mr1",
   ".skills-section .skill"]

/-- Certification selector candidates (scraper.js lines 139-146). -/
def certificationSelectors : List String :=
  [".certification__title",
   ".pvs-certification__title",
   ".pv-accomplishments-block .pv-accomplishments-block__title",
   "[data-field=\"certification_name\"]",
   ".certification-name",
   ".pvs-list__item .mr1"]

/-- Experience selector candidates (scraper.js lines 150-157). -/
def experienceSelectors : List String :=
  [".experience-entity__company-name",
   ".pvs-list .pvs-entity__caption-wrapper .t-14",
   ".pv-experience-entity h3",
   "[data-field=\"company_name\"]",
   ".company-name",
   ".pvs-list__item .t-14.t-black--light"]

/-- Education selector candidates (scraper.js lines 161-168). -/
def educationSelectors : List String :=
  [".education-entity__school-name",
   ".pvs-list .pvs-entity__caption-wrapper .t-16",
   ".pv-education-entity h3",
   "[data-field=\"school_name\"]",
   ".school-name",
   ".pvs-list__item .t-16"]

/-- Profile picture selector candidates (scraper.js lines 172-180). -/
def profilePictureSelectors : List String :=
  [".pv-top-card-profile-picture__image",
   ".profile-photo-edit__preview",
   ".pv-top-card__photo img",
   ".photo-container img",
   ".presence-entity__image",
   "img[data-anonymize=\"headshot\"]",
   ".top-card-layout__entity-image img"]

/-- Connection count selector candidates (scraper.js lines 184-189). -/
def connectionSelectors : List String :=
  [".top-card-layout__headline + div a",
   ".pv-top-card--list .pv-top-card--list-bullet:last-child",
   ".pv-top-card__connections",
   ".pv-text-details__left-panel .pv-text-details__left-panel-item:last-child"]

/-- A serialized JavaScript value as it comes back from `page.evaluate`. -/
inductive JsVal where
  | null : JsVal
  | str : String → JsVal
  | arr : List String → JsVal
  deriving DecidableEq, Repr

/-- Serialization of a nullable string. -/
def jsOfOpt : Option String → JsVal
  | none => JsVal.null
  | some s => JsVal.str s

/-- Embeds `connections.replace(/[^\d]/g, '')` (scraper.js line 201):
every character that is not a decimal digit is removed. -/
def stripNonDigits (s : String) : String :=
  String.mk (s.data.filter Char.isDigit)

/-- Embeds the connections property expression of the returned object
literal (scraper.js line 201): `connections ? connections.replace(...)
: null`.  The raw value is truthy exactly when it is a non-empty string,
so a matched-but-empty text falls into the null branch. -/
def connectionsValue (raw : Option String) : Option String :=
  match raw with
  | none => none
  | some s => if s = "" then none else some (stripNonDigits s)

/-- The window of the page being evaluated: its DOM plus its named global
bindings (a DOM element carrying an id becomes a window global of that
name, which is the only way the identifier `profilepicture` can resolve). -/
structure Page where
  dom : Dom
  globals : String → Option JsVal

/-- A JavaScript object as an ordered list of property name / value pairs. -/
abbrev JsObject := List (String × JsVal)

/-- Embeds the body of `page.evaluate` (scraper.js lines 55-203).  All the
field extractions are pure queries against the DOM.  The returned object
literal (lines 192-202) names the identifier `profilepicture`; the local
variable holding the extracted picture URL is `profilePicture` (line 181),
so `profilepicture` is not a local of the evaluated function and resolves
against the window globals; when no such binding exists the evaluation
throws a ReferenceError, which `page.evaluate` surfaces as a rejection
whose message we model by the ReferenceError text. -/
def evalProfile (page : Page) : Except String JsObject :=
  let name := getTextBySelectors page.dom nameSelectors
  let title := getTextBySelectors page.dom titleSelectors
  let location := getTextBySelectors page.dom locationSelectors
  let skills := getAllTextsBySelectors page.dom skillSelectors
  let certifications := getAllTextsBySelectors page.dom certificationSelectors
  let companies := getAllTextsBySelectors page.dom experienceSelectors
  let education := getAllTextsBySelectors page.dom educationSelectors
  let profilePicture := getAttributeBySelectors page.dom profilePictureSelectors "src"
  let connections := getTextBySelectors page.dom connectionSelectors
  match page.globals "profilepicture" with
  | none => Except.error "profilepicture is not defined"
  | some v =>
    Except.ok
      [("name", jsOfOpt name),
       ("title", jsOfOpt title),
       ("location", jsOfOpt location),
       ("skills", JsVal.arr skills),
       ("certifications", JsVal.arr certifications),
       ("companies", JsVal.arr companies),
       ("education", JsVal.arr education),
       ("profilepicture", v),
       ("connections", jsOfOpt (connectionsValue connections))]

/-- One observable action of a `scrapeLinkedInProfile` run, in the order
the source performs them. -/
inductive Effect where
  | launch : Effect
  | newPage : Effect
  | setViewport : Nat → Nat → Effect
  | setUserAgent : String → Effect
  | setRequestInterception : Effect
  | goto : String → String → Nat → Effect
  | wait : Nat → Effect
  | scrollTick : Nat → Nat → Effect
  | scrollTop : Effect
  | evaluate : Effect
  | close : Effect
  deriving DecidableEq, Repr

/-- The steps of `scrapeLinkedInProfile` that can throw.  `newPage`,
`setViewport`, `setUserAgent` and `setRequestInterception` (scraper.js
lines 21-36) run before the `try` block; `navigation` stands for
`page.goto` (line 40, including its 30 second timeout) and `evalInfra`
for a failure of the `page.evaluate` machinery itself (session torn down
mid-evaluation), both inside the `try` block. -/
inductive Step where
  | newPage : Step
  | setViewport : Step
  | setUserAgent : Step
  | setRequestInterception : Step
  | navigation : Step
  | evalInfra : Step
  deriving DecidableEq, Repr

/-- One execution environment of `scrapeLinkedInProfile`: whether the
browser launch fails, the first step that throws together with its error
message (none when every step succeeds), the value drawn for
`Math.floor(Math.random() * 3000)`, the `document.body.scrollHeight`
read on each auto-scroll tick, and the page content. -/
structure Env where
  launchError : Option String
  failAt : Option (Step × String)
  rand : Fin 3000
  scrollHeights : Nat → Nat
  page : Page

/-- The error message of the given step, when that step is the one the
environment makes throw. -/
def Env.failureOf (env : Env) (s : Step) : Option String :=
  match env.failAt with
  | some (s2, m) => if s2 = s then some m else none
  | none => none

/-- The tick count of the auto-scroll interval loop (scraper.js lines
217-231), given the scroll height read on each tick and the index of the
current tick.  Each tick adds the fixed distance 100 to `totalHeight`
(so after tick `i` it is `100 * (i + 1)`) and the loop stops once
`totalHeight` reaches the current scroll height or 3000.  The first
argument is recursion fuel: the 3000 cap makes tick 29 unconditionally
final, so starting with fuel 30 at tick 0 the fuel is never exhausted
(`autoScrollGo_fuel_irrelevant` below makes this precise). -/
def autoScrollGo (heights : Nat → Nat) : Nat → Nat → Nat
  | 0, i => i + 1
  | k + 1, i =>
    if 100 * (i + 1) ≥ heights i ∨ 100 * (i + 1) ≥ 3000 then i + 1
    else autoScrollGo heights k (i + 1)

/-- Recompute the fuel so the recursion is structural. -/
def autoScrollTicks (heights : Nat → Nat) : Nat :=
  autoScrollGo heights 30 0

/-- The user agent string set on every page (scraper.js line 25). -/
def userAgent : String :=
  "Mozilla/5.0 (Windows NT 10.0; Win64; x64) AppleWebKit/537.36 (KHTML, like Gecko) Chrome/120.0.0.0 Safari/537.36"

/-- The effects of the steps preceding the `try` block, once they have all
succeeded (scraper.js lines 4-36). -/
def setupEffects : List Effect :=
  [Effect.launch, Effect.newPage, Effect.setViewport 1366 768,
   Effect.setUserAgent userAgent, Effect.setRequestInterception]

/-- Embeds `scrapeLinkedInProfile` (scraper.js lines 3-212) as a function
of one execution environment: the effect trace of the run paired with its
outcome.  A failing launch produces no browser at all.  A failure in
`newPage` or the page configuration (lines 21-36) propagates before the
`try` block is entered, so no `close` happens on those paths.  From
`page.goto` on, a thrown error is caught (lines 208-211), the browser is
closed, and the error is rethrown wrapped as `Scraping failed: <message>`.
On success the browser is closed and the evaluated object is returned
(lines 205-206). -/
def scrapeLinkedInProfile (env : Env) (profileUrl : String) :
    List Effect × Except String JsObject :=
  match env.launchError with
  | some m => ([], Except.error m)
  | none =>
  match env.failureOf Step.newPage with
  | some m => ([Effect.launch], Except.error m)
  | none =>
  match env.failureOf Step.setViewport with
  | some m => ([Effect.launch, Effect.newPage], Except.error m)
  | none =>
  match env.failureOf Step.setUserAgent with
  | some m =>
    ([Effect.launch, Effect.newPage, Effect.setViewport 1366 768], Except.error m)
  | none =>
  match env.failureOf Step.setRequestInterception with
  | some m =>
    ([Effect.launch, Effect.newPage, Effect.setViewport 1366 768,
      Effect.setUserAgent userAgent], Except.error m)
  | none =>
  match env.failureOf Step.navigation with
  | some m =>
    (setupEffects ++ [Effect.goto profileUrl "domcontentloaded" 30000, Effect.close],
     Except.error ("Scraping failed: " ++ m))
  | none =>
  let navEffects :=
    setupEffects ++
    [Effect.goto profileUrl "domcontentloaded" 30000,
     Effect.wait (2000 + env.rand.val)] ++
    List.replicate (autoScrollTicks env.scrollHeights) (Effect.scrollTick 100 100) ++
    [Effect.scrollTop, Effect.wait 3000]
  match env.failureOf Step.evalInfra with
  | some m =>
    (navEffects ++ [Effect.evaluate, Effect.close],
     Except.error ("Scraping failed: " ++ m))
  | none =>
  match evalProfile env.page with
  | Except.error m =>
    (navEffects ++ [Effect.evaluate, Effect.close],
     Except.error ("Scraping failed: " ++ m))
  | Except.ok data =>
    (navEffects ++ [Effect.evaluate, Effect.close], Except.ok data)

/-- Ghost record of one settled scrape job of a rate limiter: its handle
id, its dispatch time, its settlement time and whether its promise
resolved (`ok = true`) or rejected. -/
structure DoneJob where
  id : Nat
  dispT : Nat
  settleT : Nat
  ok : Bool
  deriving DecidableEq, Repr

/-- State of one `createRateLimiter` instance (scraper.js lines 239-273).
`queue` and `isProcessing` are the closure variables of the source (lines
240-241), with queued jobs represented by their handle ids; `nextId`
numbers the result handles in the order `rateLimitedScrape` creates them.
The remaining fields are ghost observation state: `cur` is the currently
running job with its dispatch time, `timerAt` the absolute firing time of
the pending cooldown `setTimeout`, and `done` the log of settled jobs. -/
structure RLState where
  queue : List Nat
  isProcessing : Bool
  nextId : Nat
  cur : Option (Nat × Nat)
  timerAt : Option Nat
  done : List DoneJob
  deriving DecidableEq, Repr

/-- The initial closure state of `createRateLimiter`: empty queue, not
processing. -/
def RLState.init : RLState :=
  { queue := [], isProcessing := false, nextId := 0,
    cur := none, timerAt := none, done := [] }

/-- Embeds the synchronous front of `processQueue` (scraper.js lines
243-247) running at time `t`: return unchanged when already processing or
when the queue is empty; otherwise shift the queue head, set the flag and
start running the shifted job. -/
def processQueue (t : Nat) (st : RLState) : RLState :=
  if st.isProcessing then st
  else
    match st.queue with
    | [] => st
    | j :: rest =>
      { st with queue := rest, isProcessing := true, cur := some (j, t) }

/-- The timed events a rate limiter instance reacts to: a caller enqueues
a URL at time `t`; the awaited `fn()` of the running job settles at time
`t` with outcome `ok`; the pending cooldown `setTimeout` callback fires at
time `t`. -/
inductive Ev where
  | enqueue : Nat → Ev
  | settle : Nat → Bool → Ev
  | timerFire : Nat → Ev
  deriving DecidableEq, Repr

/-- One transition of a rate limiter created with
`createRateLimiter(rpm)`, acting on the pair of its state and the current
clock.  `enqueue t` embeds `rateLimitedScrape` (lines 263-272): a fresh
result handle is allocated, the job is pushed, and `processQueue` runs
synchronously.  `settle t ok` embeds the running `await fn()` settling
(lines 249-254): the outcome is delivered to the own handle of that job and the
cooldown `setTimeout` of `60000 / rpm` milliseconds is scheduled from the
settlement time (lines 257-260); `isProcessing` stays set.  `timerFire t`
embeds that callback (lines 257-260): the flag clears and `processQueue`
runs again.  The result is `none` when the event cannot occur: time
flowing backwards, a settlement with no running job, or a timer firing
when none is pending or before its scheduled time. -/
def rlStep (rpm : Nat) : RLState × Nat → Ev → Option (RLState × Nat)
  | (st, now), Ev.enqueue t =>
    if t < now then none
    else
      let j := st.nextId
      let st2 := { st with nextId := j + 1, queue := st.queue ++ [j] }
      some (processQueue t st2, t)
  | (st, now), Ev.settle t ok =>
    if t < now then none
    else
      match st.cur with
      | none => none
      | some (j, d) =>
        some ({ st with cur := none,
                        done := st.done ++ [⟨j, d, t, ok⟩],
                        timerAt := some (t + 60000 / rpm) }, t)
  | (st, now), Ev.timerFire t =>
    if t < now then none
    else
      match st.timerAt with
      | none => none
      | some c =>
        if t < c then none
        else
          some (processQueue t { st with timerAt := none, isProcessing := false }, t)

/-- Run one rate limiter instance from its initial state over a list of
timed events; `none` when some event is impossible. -/
def rlRun (rpm : Nat) (evs : List Ev) : Option (RLState × Nat) :=
  evs.foldlM (rlStep rpm) (RLState.init, 0)

/-- The handle ids of all jobs a state has ever seen, in their dispatch
order for the settled and running parts, followed by the still queued
jobs in FIFO order. -/
def allIds (st : RLState) : List Nat :=
  st.done.map DoneJob.id ++ (st.cur.map Prod.fst).toList ++ st.queue

/-- The handle ids of the dispatched jobs, in dispatch order. -/
def dispatchedIds (st : RLState) : List Nat :=
  st.done.map DoneJob.id ++ (st.cur.map Prod.fst).toList

/-- The dispatch times of the dispatched jobs, in dispatch order. -/
def dispTimes (st : RLState) : List Nat :=
  st.done.map DoneJob.dispT ++ (st.cur.map Prod.snd).toList

/-- The settlement times of the settled jobs, in dispatch order. -/
def settleTimes (st : RLState) : List Nat :=
  st.done.map DoneJob.settleT

/-- The earliest time the next job may be dispatched: the settlement time
of the most recently settled job plus the cooldown, or 0 when nothing has
settled yet. -/
def nextDispatchLo (gap : Nat) (done : List DoneJob) : Nat :=
  match done.getLast? with
  | none => 0
  | some j => j.settleT + gap

/-- A settled-job log is well spaced above `lo`: each job is dispatched no
earlier than `lo`, settles no earlier than it is dispatched, and the jobs
after it are well spaced above its settlement time plus the cooldown. -/
def SpacedFrom (gap : Nat) : Nat → List DoneJob → Prop
  | _, [] => True
  | lo, j :: rest => lo ≤ j.dispT ∧ j.dispT ≤ j.settleT ∧ SpacedFrom gap (j.settleT + gap) rest

/-- The inductive invariant of a rate limiter instance: the ids ever seen
are exactly `0, ..., nextId - 1` in order; the `isProcessing` flag is set
exactly while a job is running or a cooldown timer is pending; the settled
log is well spaced; settled jobs settle no later than the clock; a running
job was dispatched after the cooldown of the last settlement, no later
than the clock, and excludes a pending timer; a pending timer is scheduled
exactly at the last settlement plus the cooldown and excludes a running
job; and when the flag is clear the cooldown of the last settlement has
already elapsed. -/
structure RLInv (gap : Nat) (st : RLState) (now : Nat) : Prop where
  ids : allIds st = List.range st.nextId
  proc : st.isProcessing = (st.cur.isSome || st.timerAt.isSome)
  spaced : SpacedFrom gap 0 st.done
  done_le : ∀ j ∈ st.done, j.settleT ≤ now
  cur_ok : ∀ i d, st.cur = some (i, d) →
    nextDispatchLo gap st.done ≤ d ∧ d ≤ now ∧ st.timerAt = none
  timer_ok : ∀ c, st.timerAt = some c →
    st.cur = none ∧ c = nextDispatchLo gap st.done
  idle_ok : st.isProcessing = false → nextDispatchLo gap st.done ≤ now

/-- Follows the words of claim C3 for single-value extraction: the first
element found by any candidate, candidates taken in listed order. -/
def firstFoundElement (dom : Dom) : List String → Option Element
  | [] => none
  | s :: rest =>
    match dom.querySelector s with
    | some e => some e
    | none => firstFoundElement dom rest

/-- Follows the words of claim C3 for attribute extraction: the requested
attribute of the first element found by any candidate. -/
def specAttrOfFirstFound (dom : Dom) (sels : List String) (attr : String) :
    Option String :=
  (firstFoundElement dom sels).bind (fun e => e.getAttribute attr)

/-- The attribute extraction the code performs, stated declaratively: the
first candidate, in listed order, whose first matched element carries a
present non-empty value of the attribute; elements found without such a
value are skipped. -/
def firstTruthyAttr (dom : Dom) (sels : List String) (attr : String) :
    Option String :=
  sels.findSome? (fun s =>
    (dom.querySelector s).bind (fun e =>
      match e.getAttribute attr with
      | some a => if a = "" then none else some a
      | none => none))

/-- Follows the words of claim C4: the discovery-ordered list of trimmed
non-empty texts of all elements matched by all candidates. -/
def discoveredTexts (dom : Dom) (sels : List String) : List String :=
  ((sels.map (fun s => (dom.elems s).map (fun e => jsTrim e.textContent))).flatten).filter
    (fun t => t != "")

/-- Follows the words of claim C4: remove exact-text duplicates, keeping
the first occurrence of each value in order. -/
def dedupFirst (l : List String) : List String :=
  l.foldl setAdd []

/-- The profile record fields in the names and order claim C1 takes from
the data model of the spec. -/
def specProfileKeys : List String :=
  ["name", "title", "location", "skills", "certifications", "companies",
   "education", "profilePictureUrl", "connections"]

/-- An element holding only a text. -/
def textElem (t : String) : Element := ⟨t, []⟩

/-- The property names of a successful result, `none` on a failed one. -/
def okKeys (r : Except String JsObject) : Option (List String) :=
  match r with
  | Except.ok obj => some (obj.map Prod.fst)
  | Except.error _ => none

/-- Forget the recorded success flags of the settled jobs, keeping
everything else of the state. -/
def forgetOutcomes (st : RLState) : RLState :=
  { st with done := st.done.map (fun j => { j with ok := true }) }

/-- Fixture for the scenario of claim C4: name `Jane Doe`, skills `Go` and
`Rust` under the first skill candidate, a duplicate `Go` under the second
skill candidate. -/
def janeDom : Dom :=
  ⟨fun s =>
    if s = ".text-heading-xlarge" then [textElem "Jane Doe"]
    else if s = ".skill-entity__skill-name" then [textElem "Go", textElem "Rust"]
    else if s = ".pvs-skill__skill-name" then [textElem "Go"]
    else []⟩

/-- Fixture for claim C3: the first profile picture candidate matches an
element without a `src` attribute, the second matches one whose `src` is
`pic.jpg`. -/
def cexAttrDom : Dom :=
  ⟨fun s =>
    if s = ".pv-top-card-profile-picture__image" then [⟨"", []⟩]
    else if s = ".profile-photo-edit__preview" then [⟨"", [("src", "pic.jpg")]⟩]
    else []⟩

/-- Fixture for claim C5: the first connection candidate matches an
element whose text is whitespace only, so its trimmed text is empty. -/
def cexConnDom : Dom :=
  ⟨fun s =>
    if s = ".top-card-layout__headline + div a" then [textElem "   "] else []⟩

/-- Fixture for the spec example of claim C5: the first connection
candidate matches an element with text `500+ connections`. -/
def connDom500 : Dom :=
  ⟨fun s =>
    if s = ".top-card-layout__headline + div a" then [textElem "500+ connections"]
    else []⟩

/-- An execution environment in which every step succeeds and the page
carries a window binding named `profilepicture` (for example a DOM element
with that id), the only situation in which the evaluation can complete. -/
def envPicGlobal : Env :=
  { launchError := none, failAt := none, rand := ⟨0, by decide⟩,
    scrollHeights := fun _ => 0,
    page := { dom := janeDom,
              globals := fun n =>
                if n = "profilepicture" then some (JsVal.str "serializedElement")
                else none } }

/-- An execution environment in which every step succeeds and no window
binding named `profilepicture` exists (the ordinary case). -/
def envNoPic : Env :=
  { launchError := none, failAt := none, rand := ⟨0, by decide⟩,
    scrollHeights := fun _ => 0,
    page := { dom := janeDom, globals := fun _ => none } }

/-- An execution environment in which `browser.newPage()` throws after a
successful launch. -/
def envNewPageFails : Env :=
  { launchError := none, failAt := some (Step.newPage, "newPage failed"),
    rand := ⟨0, by decide⟩, scrollHeights := fun _ => 0,
    page := { dom := ⟨fun _ => []⟩, globals := fun _ => none } }

/-- An execution environment in which `page.goto` throws (for example the
30 second navigation timeout). -/
def envNavFails : Env :=
  { launchError := none, failAt := some (Step.navigation, "nav timeout"),
    rand := ⟨0, by decide⟩, scrollHeights := fun _ => 0,
    page := { dom := ⟨fun _ => []⟩, globals := fun _ => none } }

/-- A concrete event trace for a rate limiter with two requests per
minute: three instantaneous enqueues, settlement of job 0 at time 5, the
cooldown timer firing at 30005, settlement of job 1 (a failure) at 30010,
and the next timer firing at 60010. -/
def evs9 : List Ev :=
  [Ev.enqueue 0, Ev.enqueue 0, Ev.enqueue 0, Ev.settle 5 true,
   Ev.timerFire 30005, Ev.settle 30010 false, Ev.timerFire 60010]

/-- The state the trace `evs9` reaches: jobs 0 and 1 settled, job 2
running since time 60010. -/
def st9 : RLState :=
  { queue := [], isProcessing := true, nextId := 3, cur := some (2, 60010),
    timerAt := none,
    done := [⟨0, 0, 5, true⟩, ⟨1, 30005, 30010, false⟩] }

/-- Whether an effect is the browser close call. -/
def isClose : Effect → Bool
  | Effect.close => true
  | _ => false

/-- How many times a trace closes the browser. -/
def countClose (l : List Effect) : Nat :=
  (l.filter isClose).length

/-- Within a well-spaced log, every job settles no earlier than it is
dispatched. -/
theorem spacedFrom_mem {gap : Nat} :
    ∀ {l : List DoneJob} {lo : Nat}, SpacedFrom gap lo l →
      ∀ j ∈ l, j.dispT ≤ j.settleT := by
  intro l
  induction l with
  | nil => intro lo _ j hj; cases hj
  | cons a rest ih =>
    intro lo h j hj
    rcases h with ⟨_, h2, h3⟩
    rcases List.mem_cons.mp hj with hj | hj
    · exact hj ▸ h2
    · exact ih h3 j hj

/-- A nonempty well-spaced log allows the next dispatch no earlier than its
own lower bound. -/
theorem spacedFrom_lo_le_nextLo {gap : Nat} :
    ∀ {l : List DoneJob} {lo : Nat}, SpacedFrom gap lo l → l ≠ [] →
      lo ≤ nextDispatchLo gap l := by
  intro l
  induction l with
  | nil => intro lo _ h; exact absurd rfl h
  | cons a rest ih =>
    intro lo h _
    rcases h with ⟨h1, h2, h3⟩
    cases rest with
    | nil =>
      simp only [nextDispatchLo, List.getLast?_singleton]
      omega
    | cons b rest2 =>
      have hx := ih h3 (by simp)
      simp only [nextDispatchLo, List.getLast?_cons_cons] at *
      omega

/-- Appending a job dispatched after the lower bound of the log, and after
the own lower bound of the log, keeps the log well spaced. -/
theorem spacedFrom_append {gap : Nat} {i d s : Nat} {ok : Bool} :
    ∀ {l : List DoneJob} {lo : Nat}, SpacedFrom gap lo l → lo ≤ d →
      nextDispatchLo gap l ≤ d → d ≤ s →
      SpacedFrom gap lo (l ++ [⟨i, d, s, ok⟩]) := by
  intro l
  induction l with
  | nil =>
    intro lo _ hlo _ hds
    exact ⟨hlo, hds, trivial⟩
  | cons a rest ih =>
    intro lo h hlo hnext hds
    rcases h with ⟨h1, h2, h3⟩
    refine ⟨h1, h2, ?_⟩
    cases rest with
    | nil =>
      simp only [nextDispatchLo, List.getLast?_singleton] at hnext
      exact ih h3 hnext (by simp [nextDispatchLo]) hds
    | cons b rest2 =>
      simp only [nextDispatchLo, List.getLast?_cons_cons] at hnext
      have hx := spacedFrom_lo_le_nextLo h3 (by simp)
      simp only [nextDispatchLo] at hx
      exact ih h3 (by omega) (by simpa [nextDispatchLo] using hnext) hds

/-- The lower bound after an append is the settlement of the appended job
plus the cooldown. -/
theorem nextDispatchLo_append (gap : Nat) (l : List DoneJob) (j : DoneJob) :
    nextDispatchLo gap (l ++ [j]) = j.settleT + gap := by
  simp [nextDispatchLo, List.getLast?_concat]

/-- Consecutive jobs of a well-spaced log are separated by the cooldown,
counted from the settlement of the earlier one. -/
theorem spacedFrom_pair {gap : Nat} :
    ∀ {l : List DoneJob} {lo : Nat}, SpacedFrom gap lo l →
      ∀ i j1 j2, l[i]? = some j1 → l[i + 1]? = some j2 →
        j1.settleT + gap ≤ j2.dispT := by
  intro l
  induction l with
  | nil => intro lo _ i j1 j2 h1; simp at h1
  | cons a rest ih =>
    intro lo h i j1 j2 h1 h2
    rcases h with ⟨_, _, h3⟩
    cases i with
    | zero =>
      simp only [List.getElem?_cons_zero, Option.some.injEq] at h1
      cases rest with
      | nil => simp at h2
      | cons b rest2 =>
        simp only [List.getElem?_cons_succ, List.getElem?_cons_zero,
          Option.some.injEq] at h2
        rcases h3 with ⟨hb, _, _⟩
        subst h1; subst h2; exact hb
    | succ i2 =>
      simp only [List.getElem?_cons_succ] at h1 h2
      exact ih h3 i2 j1 j2 h1 h2

/-- Any clock no earlier than the current one still satisfies the
invariant. -/
theorem rlInv_mono {gap : Nat} {st : RLState} {now t : Nat}
    (h : RLInv gap st now) (hle : now ≤ t) : RLInv gap st t where
  ids := h.ids
  proc := h.proc
  spaced := h.spaced
  done_le := fun j hj => le_trans (h.done_le j hj) hle
  cur_ok := fun i d hc => by
    rcases h.cur_ok i d hc with ⟨a, b, c⟩
    exact ⟨a, le_trans b hle, c⟩
  timer_ok := h.timer_ok
  idle_ok := fun hp => le_trans (h.idle_ok hp) hle

/-- Running the synchronous front of `processQueue` at the current clock
preserves the invariant. -/
theorem rlInv_processQueue {gap : Nat} {st : RLState} {now : Nat}
    (h : RLInv gap st now) : RLInv gap (processQueue now st) now := by
  unfold processQueue
  by_cases hp : st.isProcessing
  · simpa [hp] using h
  · cases hq : st.queue with
    | nil => simpa [hp, hq] using h
    | cons j rest =>
      have hproc := h.proc
      rw [if_neg hp]
      simp only [hq]
      have hcur : st.cur = none := by
        cases hc : st.cur with
        | none => rfl
        | some p => rw [hc] at hproc; simp at hproc; exact absurd hproc hp
      have htimer : st.timerAt = none := by
        cases ht : st.timerAt with
        | none => rfl
        | some c => rw [ht] at hproc; simp at hproc; exact absurd hproc hp
      constructor
      · have := h.ids
        simp only [allIds, hcur, hq, Option.map_none, Option.toList_none,
          List.nil_append] at this ⊢
        simpa using this
      · simp [htimer]
      · exact h.spaced
      · exact h.done_le
      · intro i d hc
        simp only [Option.some.injEq, Prod.mk.injEq] at hc
        have hidle := h.idle_ok (by simpa using hp)
        refine ⟨?_, ?_, htimer⟩
        · show nextDispatchLo gap st.done ≤ d
          omega
        · omega
      · intro c hc; rw [htimer] at hc; cases hc
      · intro hfalse; simp at hfalse

/-- Every successful transition of a rate limiter created with
`createRateLimiter(rpm)` preserves the invariant. -/
theorem rlStep_inv {rpm : Nat} {p q : RLState × Nat} {ev : Ev}
    (h : RLInv (60000 / rpm) p.1 p.2) (hstep : rlStep rpm p ev = some q) :
    RLInv (60000 / rpm) q.1 q.2 := by
  obtain ⟨st, now⟩ := p
  replace h : RLInv (60000 / rpm) st now := h
  cases ev with
  | enqueue t =>
    simp only [rlStep] at hstep
    by_cases hlt : t < now
    · simp [hlt] at hstep
    · rw [if_neg hlt] at hstep
      simp only [Option.some.injEq] at hstep
      have hmono := rlInv_mono h (Nat.le_of_not_lt hlt)
      have hpush : RLInv (60000 / rpm)
          { st with nextId := st.nextId + 1, queue := st.queue ++ [st.nextId] } t := by
        constructor
        · have := hmono.ids
          simp only [allIds] at this ⊢
          rw [List.range_succ, ← this]
          simp
        · exact hmono.proc
        · exact hmono.spaced
        · exact hmono.done_le
        · exact hmono.cur_ok
        · exact hmono.timer_ok
        · exact hmono.idle_ok
      rw [← hstep]
      exact rlInv_processQueue hpush
  | settle t ok =>
    simp only [rlStep] at hstep
    by_cases hlt : t < now
    · simp [hlt] at hstep
    · rw [if_neg hlt] at hstep
      cases hc : st.cur with
      | none => rw [hc] at hstep; cases hstep
      | some jd =>
        obtain ⟨j, d⟩ := jd
        rw [hc] at hstep
        simp only [Option.some.injEq] at hstep
        rcases h.cur_ok j d hc with ⟨hd1, hd2, hd3⟩
        have hproc : st.isProcessing = true := by
          have := h.proc; rw [hc] at this; simpa using this
        rw [← hstep]
        constructor
        · have := h.ids
          simp only [allIds, hc] at this ⊢
          simp only [List.map_append, List.map_cons, List.map_nil]
          rw [← this]
          simp
        · simp [hproc]
        · exact spacedFrom_append h.spaced (Nat.zero_le d) hd1
            (le_trans hd2 (Nat.le_of_not_lt hlt))
        · intro j2 hj2
          simp only [List.mem_append, List.mem_singleton] at hj2
          rcases hj2 with hj2 | hj2
          · exact le_trans (h.done_le j2 hj2) (Nat.le_of_not_lt hlt)
          · rw [hj2]
        · intro i2 d2 hc2; cases hc2
        · intro c hc2
          simp only [Option.some.injEq] at hc2
          refine ⟨rfl, ?_⟩
          rw [nextDispatchLo_append, ← hc2]
        · intro hfalse; rw [hproc] at hfalse; cases hfalse
  | timerFire t =>
    simp only [rlStep] at hstep
    by_cases hlt : t < now
    · simp [hlt] at hstep
    · rw [if_neg hlt] at hstep
      cases ht : st.timerAt with
      | none => rw [ht] at hstep; cases hstep
      | some c =>
        rw [ht] at hstep
        by_cases hc : t < c
        · simp [hc] at hstep
        · simp only [if_neg hc, Option.some.injEq] at hstep
          rcases h.timer_ok c ht with ⟨hcur, hcval⟩
          have hmid : RLInv (60000 / rpm)
              { st with timerAt := none, isProcessing := false } t := by
            constructor
            · have := h.ids; simpa [allIds] using this
            · simp [hcur]
            · exact h.spaced
            · exact fun j hj =>
                le_trans (h.done_le j hj) (Nat.le_of_not_lt hlt)
            · intro i d hcd; rw [hcur] at hcd; cases hcd
            · intro c2 hc2; cases hc2
            · intro _; rw [← hcval]; exact Nat.le_of_not_lt hc
          rw [← hstep]
          exact rlInv_processQueue hmid

/-- The invariant holds in the initial state. -/
theorem rlInv_init {gap : Nat} : RLInv gap RLState.init 0 := by
  constructor <;> simp [RLState.init, allIds, SpacedFrom, nextDispatchLo]

/-- Every state a rate limiter reaches from its initial state satisfies
the invariant. -/
theorem rlRun_inv {rpm : Nat} {evs : List Ev} {q : RLState × Nat}
    (h : rlRun rpm evs = some q) : RLInv (60000 / rpm) q.1 q.2 := by
  have main : ∀ (l : List Ev) (p : RLState × Nat), RLInv (60000 / rpm) p.1 p.2 →
      List.foldlM (rlStep rpm) p l = some q → RLInv (60000 / rpm) q.1 q.2 := by
    intro l
    induction l with
    | nil =>
      intro p hp hrun
      simp only [List.foldlM, pure, Option.some.injEq] at hrun
      exact hrun ▸ hp
    | cons e rest ih =>
      intro p hp hrun
      simp only [List.foldlM] at hrun
      cases hstep : rlStep rpm p e with
      | none => rw [hstep] at hrun; simp at hrun
      | some p2 =>
        rw [hstep] at hrun
        simp only [Option.bind_eq_bind, Option.some_bind] at hrun
        exact ih p2 (rlStep_inv hp hstep) hrun
  exact main evs (RLState.init, 0) rlInv_init h

/-- The auto-scroll loop started with fuel `k` at tick `i`, where the fuel
covers the remaining ticks to the cap, stops at a tick satisfying the stop
condition, within 30 ticks in total, and at the first such tick. -/
theorem autoScrollGo_spec (heights : Nat → Nat) :
    ∀ k i, k + i = 30 → i ≤ 29 →
      i + 1 ≤ autoScrollGo heights k i ∧
      autoScrollGo heights k i ≤ 30 ∧
      (100 * autoScrollGo heights k i ≥ heights (autoScrollGo heights k i - 1) ∨
        100 * autoScrollGo heights k i ≥ 3000) ∧
      (∀ j, i ≤ j → j + 1 < autoScrollGo heights k i →
        ¬(100 * (j + 1) ≥ heights j ∨ 100 * (j + 1) ≥ 3000)) := by
  intro k
  induction k with
  | zero => intro i hk hi; omega
  | succ k2 ih =>
    intro i hk hi
    by_cases hP : 100 * (i + 1) ≥ heights i ∨ 100 * (i + 1) ≥ 3000
    · simp only [autoScrollGo, if_pos hP]
      refine ⟨le_refl _, by omega, by simpa using hP, ?_⟩
      intro j h1 h2; omega
    · have hi28 : i ≤ 28 := by
        by_contra hgt
        exact hP (Or.inr (by omega))
      simp only [autoScrollGo, if_neg hP]
      rcases ih (i + 1) (by omega) (by omega) with ⟨a, b, c, d⟩
      refine ⟨by omega, b, c, ?_⟩
      intro j h1 h2
      rcases Nat.eq_or_lt_of_le h1 with heq | hlt
      · exact heq ▸ hP
      · exact d j hlt h2

/-- Any fuel beyond what the 3000 cap can consume gives the same tick
count: the fuel in `autoScrollGo` is an artifact of the embedding, not a
truncation of the source loop. -/
theorem autoScrollGo_fuel (heights : Nat → Nat) :
    ∀ k i m, 30 ≤ k + i → autoScrollGo heights (k + m) i = autoScrollGo heights k i := by
  intro k
  induction k with
  | zero =>
    intro i m h
    cases m with
    | zero => rfl
    | succ m2 =>
      have hP : 100 * (i + 1) ≥ heights i ∨ 100 * (i + 1) ≥ 3000 :=
        Or.inr (by omega)
      simp only [Nat.zero_add, autoScrollGo, if_pos hP]
  | succ k2 ih =>
    intro i m h
    rw [show k2 + 1 + m = k2 + m + 1 by omega]
    by_cases hP : 100 * (i + 1) ≥ heights i ∨ 100 * (i + 1) ≥ 3000
    · simp only [autoScrollGo, if_pos hP]
    · simp only [autoScrollGo, if_neg hP]
      exact ih (i + 1) m (by omega)

/-- The tick count of the auto-scroll loop is between 1 and 30, the stop
condition holds at the final tick, and at no earlier tick. -/
theorem autoScrollTicks_spec (heights : Nat → Nat) :
    1 ≤ autoScrollTicks heights ∧
    autoScrollTicks heights ≤ 30 ∧
    (100 * autoScrollTicks heights ≥ heights (autoScrollTicks heights - 1) ∨
      100 * autoScrollTicks heights ≥ 3000) ∧
    (∀ j, j + 1 < autoScrollTicks heights →
      ¬(100 * (j + 1) ≥ heights j ∨ 100 * (j + 1) ≥ 3000)) := by
  rcases autoScrollGo_spec heights 30 0 rfl (by omega) with ⟨a, b, c, d⟩
  exact ⟨a, b, c, fun j hj => d j (Nat.zero_le j) hj⟩


/-- Single-value text extraction is first-element-found-wins: it returns
the trimmed text of the first element found by any candidate. -/
theorem getText_eq_firstFound (dom : Dom) :
    ∀ sels, getTextBySelectors dom sels =
      (firstFoundElement dom sels).map (fun e => jsTrim e.textContent) := by
  intro sels
  induction sels with
  | nil => rfl
  | cons s rest ih =>
    simp only [getTextBySelectors, firstFoundElement]
    cases dom.querySelector s
    · simpa using ih
    · rfl

/-- Attribute extraction returns the first present non-empty attribute
value among the first matched elements of the candidates, in order. -/
theorem getAttr_eq_firstTruthy (dom : Dom) (attr : String) :
    ∀ sels, getAttributeBySelectors dom sels attr = firstTruthyAttr dom sels attr := by
  intro sels
  induction sels with
  | nil => rfl
  | cons s rest ih =>
    simp only [getAttributeBySelectors, firstTruthyAttr, List.findSome?_cons]
    cases hq : dom.querySelector s with
    | none => simpa [firstTruthyAttr] using ih
    | some e =>
      simp only [Option.some_bind]
      cases ha : e.getAttribute attr with
      | none => simpa [firstTruthyAttr] using ih
      | some a =>
        by_cases hA : a = ""
        · simpa [hA, firstTruthyAttr] using ih
        · simp [hA]

/-- When no candidate matches any element there is no truthy attribute
either. -/
theorem firstTruthyAttr_none (dom : Dom) (attr : String) :
    ∀ sels, firstFoundElement dom sels = none →
      firstTruthyAttr dom sels attr = none := by
  intro sels
  induction sels with
  | nil => intro _; rfl
  | cons s rest ih =>
    intro h
    simp only [firstFoundElement] at h
    cases hq : dom.querySelector s with
    | some e => rw [hq] at h; cases h
    | none =>
      rw [hq] at h
      simpa [firstTruthyAttr, List.findSome?_cons, hq] using ih h

/-- Membership after one `Set` insertion. -/
theorem mem_setAdd {acc : List String} {x t : String} :
    t ∈ setAdd acc x ↔ t ∈ acc ∨ t = x := by
  unfold setAdd
  by_cases h : x ∈ acc
  · simp only [if_pos h]
    constructor
    · exact Or.inl
    · rintro (ht | rfl)
      · exact ht
      · exact h
  · simp [if_neg h]

/-- Membership after folding `Set` insertions. -/
theorem mem_foldl_setAdd :
    ∀ (l acc : List String) (t : String),
      t ∈ l.foldl setAdd acc ↔ t ∈ acc ∨ t ∈ l := by
  intro l
  induction l with
  | nil => intro acc t; simp
  | cons a rest ih =>
    intro acc t
    rw [List.foldl_cons, ih, mem_setAdd]
    simp only [List.mem_cons]
    tauto

/-- One `Set` insertion keeps the list duplicate free. -/
theorem setAdd_nodup {acc : List String} {t : String} (h : acc.Nodup) :
    (setAdd acc t).Nodup := by
  unfold setAdd
  by_cases ht : t ∈ acc
  · simpa [ht]
  · simp [ht, List.nodup_append, h]

/-- Folding `Set` insertions keeps the list duplicate free. -/
theorem foldl_setAdd_nodup :
    ∀ (l acc : List String), acc.Nodup → (l.foldl setAdd acc).Nodup := by
  intro l
  induction l with
  | nil => intro acc h; exact h
  | cons a rest ih =>
    intro acc h
    exact ih (setAdd acc a) (setAdd_nodup h)

/-- The inner element loop of `getAllTextsBySelectors` is a fold of `Set`
insertions over the trimmed non-empty texts of the elements. -/
theorem foldl_elems_eq (xs : List Element) :
    ∀ acc : List String,
      xs.foldl
        (fun acc2 e =>
          let text := jsTrim e.textContent
          if text = "" then acc2 else setAdd acc2 text) acc =
      ((xs.map (fun e => jsTrim e.textContent)).filter (fun t => t != "")).foldl
        setAdd acc := by
  induction xs with
  | nil => intro acc; rfl
  | cons x rest ih =>
    intro acc
    rw [List.foldl_cons, List.map_cons, List.filter_cons]
    by_cases h : jsTrim x.textContent = ""
    · simp only [h]
      simpa using ih acc
    · simp only [if_neg h]
      have hb : (jsTrim x.textContent != "") = true := by
        simpa [bne_iff_ne] using h
      rw [hb]
      simp only [if_pos rfl, List.foldl_cons]
      exact ih (setAdd acc (jsTrim x.textContent))

/-- The selector loop of `getAllTextsBySelectors` is a fold of `Set`
insertions over the discovery-ordered text list. -/
theorem foldl_sels_eq (dom : Dom) :
    ∀ (sels : List String) (acc : List String),
      sels.foldl
        (fun acc s =>
          (dom.elems s).foldl
            (fun acc2 e =>
              let text := jsTrim e.textContent
              if text = "" then acc2 else setAdd acc2 text) acc) acc =
      (discoveredTexts dom sels).foldl setAdd acc := by
  intro sels
  induction sels with
  | nil => intro acc; rfl
  | cons s rest ih =>
    intro acc
    have hdisc : discoveredTexts dom (s :: rest) =
        ((dom.elems s).map (fun e => jsTrim e.textContent)).filter (fun t => t != "") ++
          discoveredTexts dom rest := by
      simp [discoveredTexts, List.filter_append]
    rw [List.foldl_cons, hdisc, List.foldl_append, ← foldl_elems_eq]
    exact ih _

/-- `getAllTextsBySelectors` equals first-occurrence deduplication of the
discovery-ordered text list. -/
theorem getAllTexts_eq_dedup (dom : Dom) (sels : List String) :
    getAllTextsBySelectors dom sels = dedupFirst (discoveredTexts dom sels) :=
  foldl_sels_eq dom sels []

/-- Membership in the discovery-ordered text list, spelled out. -/
theorem mem_discoveredTexts (dom : Dom) (sels : List String) (t : String) :
    t ∈ discoveredTexts dom sels ↔
      t ≠ "" ∧ ∃ s ∈ sels, ∃ e ∈ dom.elems s, jsTrim e.textContent = t := by
  simp only [discoveredTexts, List.mem_filter, List.mem_flatten, List.mem_map,
    bne_iff_ne, ne_eq]
  constructor
  · rintro ⟨⟨l, ⟨s, hs, rfl⟩, htl⟩, hne⟩
    rcases List.mem_map.mp htl with ⟨e, he, het⟩
    exact ⟨hne, s, hs, e, he, het⟩
  · rintro ⟨hne, s, hs, e, he, het⟩
    exact ⟨⟨(dom.elems s).map (fun e => jsTrim e.textContent), ⟨s, hs, rfl⟩,
      List.mem_map.mpr ⟨e, he, het⟩⟩, hne⟩

/-- The full trace and outcome of a run in which the launch, the page
setup and the navigation all succeed. -/
theorem scrape_clean (env : Env) (url : String) (h1 : env.launchError = none)
    (h2 : env.failAt = none) :
    scrapeLinkedInProfile env url =
      ((setupEffects ++
        [Effect.goto url "domcontentloaded" 30000, Effect.wait (2000 + env.rand.val)] ++
        List.replicate (autoScrollTicks env.scrollHeights) (Effect.scrollTick 100 100) ++
        [Effect.scrollTop, Effect.wait 3000]) ++ [Effect.evaluate, Effect.close],
       match evalProfile env.page with
       | Except.ok d => Except.ok d
       | Except.error m => Except.error ("Scraping failed: " ++ m)) := by
  unfold scrapeLinkedInProfile
  rw [h1]
  simp only [Env.failureOf, h2]
  cases evalProfile env.page <;> rfl

/-- The trace and outcome of a run in which the navigation step throws. -/
theorem scrape_navfail (env : Env) (url : String) (m : String)
    (h1 : env.launchError = none) (hf : env.failAt = some (Step.navigation, m)) :
    scrapeLinkedInProfile env url =
      (setupEffects ++ [Effect.goto url "domcontentloaded" 30000, Effect.close],
       Except.error ("Scraping failed: " ++ m)) := by
  unfold scrapeLinkedInProfile
  rw [h1]
  simp [Env.failureOf, hf]

/-- The trace and outcome of a run in which the evaluation machinery
itself throws after a successful navigation. -/
theorem scrape_evalfail (env : Env) (url : String) (m : String)
    (h1 : env.launchError = none) (hf : env.failAt = some (Step.evalInfra, m)) :
    scrapeLinkedInProfile env url =
      ((setupEffects ++
        [Effect.goto url "domcontentloaded" 30000, Effect.wait (2000 + env.rand.val)] ++
        List.replicate (autoScrollTicks env.scrollHeights) (Effect.scrollTick 100 100) ++
        [Effect.scrollTop, Effect.wait 3000]) ++ [Effect.evaluate, Effect.close],
       Except.error ("Scraping failed: " ++ m)) := by
  unfold scrapeLinkedInProfile
  rw [h1]
  simp [Env.failureOf, hf]

/-- A successful scrape forces every step to have succeeded and the
evaluation to have produced the returned object. -/
theorem scrape_ok_implies (env : Env) (url : String) (obj : JsObject)
    (h : (scrapeLinkedInProfile env url).2 = Except.ok obj) :
    env.launchError = none ∧ env.failAt = none ∧
      evalProfile env.page = Except.ok obj := by
  unfold scrapeLinkedInProfile at h
  cases hl : env.launchError with
  | some m => rw [hl] at h; cases h
  | none =>
    rw [hl] at h
    refine ⟨rfl, ?_⟩
    cases hfa : env.failAt with
    | none =>
      simp only [Env.failureOf, hfa] at h
      cases heval : evalProfile env.page with
      | error m => rw [heval] at h; cases h
      | ok d => rw [heval] at h; cases h; exact ⟨rfl, rfl⟩
    | some sm =>
      obtain ⟨s, m⟩ := sm
      cases s <;> simp [Env.failureOf, hfa] at h

/-- Closing counts add over concatenation. -/
theorem countClose_append (l1 l2 : List Effect) :
    countClose (l1 ++ l2) = countClose l1 + countClose l2 := by
  simp [countClose, List.filter_append]

/-- A replicated non-close effect contributes no close. -/
theorem countClose_replicate (n : Nat) (e : Effect) (h : isClose e = false) :
    countClose (List.replicate n e) = 0 := by
  simp [countClose, List.filter_replicate, h]

/-- The last element of a list extended by two elements. -/
theorem getLast?_append_two {α : Type} (l : List α) (a b : α) :
    (l ++ [a, b]).getLast? = some b := by
  rw [show l ++ [a, b] = (l ++ [a]) ++ [b] by simp]
  exact List.getLast?_concat _

/-- A left factor of the range is an initial range. -/
theorem prefix_range {l1 l2 : List Nat} {n : Nat}
    (h : l1 ++ l2 = List.range n) : l1 = List.range l1.length := by
  have h1 : l1 = (l1 ++ l2).take l1.length := (List.take_left l1 l2).symm
  rw [h, List.take_range] at h1
  have hlen : l1.length ≤ n := by
    have := congrArg List.length h
    simp at this
    omega
  rwa [Nat.min_eq_left hlen] at h1

/-- Dispatching does not touch the handle counter. -/
theorem processQueue_nextId (t : Nat) (st : RLState) :
    (processQueue t st).nextId = st.nextId := by
  unfold processQueue
  by_cases h : st.isProcessing
  · simp [h]
  · cases hq : st.queue <;> simp [h, hq]

/-- While the in-flight flag is set, the dispatch routine is a no-op. -/
theorem processQueue_of_processing (t : Nat) (st : RLState)
    (h : st.isProcessing = true) : processQueue t st = st := by
  simp [processQueue, h]

/-- Dispatching never creates or loses job ids. -/
theorem processQueue_allIds (t : Nat) (st : RLState)
    (h : st.isProcessing = false → st.cur = none) :
    allIds (processQueue t st) = allIds st := by
  unfold processQueue
  by_cases hp : st.isProcessing
  · simp [hp]
  · have hc := h (by simpa using hp)
    cases hq : st.queue with
    | nil => simp [hp, hq]
    | cons j rest => simp [hp, hq, allIds, hc]

/-- The successor state of a settlement does not depend on whether the
job succeeded, apart from the recorded outcome flag. -/
theorem rlStep_settle_outcome (rpm : Nat) (p : RLState × Nat) (t : Nat) (ok : Bool) :
    (rlStep rpm p (Ev.settle t ok)).map (fun q => (forgetOutcomes q.1, q.2)) =
      (rlStep rpm p (Ev.settle t true)).map (fun q => (forgetOutcomes q.1, q.2)) := by
  obtain ⟨st, now⟩ := p
  simp only [rlStep]
  by_cases hlt : t < now
  · simp [hlt]
  · rw [if_neg hlt, if_neg hlt]
    cases st.cur with
    | none => rfl
    | some jd =>
      obtain ⟨j, d⟩ := jd
      simp [forgetOutcomes]

/-- Under the invariant, each dispatched job after the first starts no
earlier than the cooldown after the previous settlement, which itself is
no earlier than the previous dispatch. -/
theorem rlInv_pairSpacing {gap : Nat} {st : RLState} {now : Nat}
    (inv : RLInv gap st now) :
    ∀ i, i + 1 < (dispTimes st).length →
      ∃ d1 s1 d2, (dispTimes st)[i]? = some d1 ∧ (settleTimes st)[i]? = some s1 ∧
        (dispTimes st)[i + 1]? = some d2 ∧ d1 ≤ s1 ∧ s1 + gap ≤ d2 := by
  intro i hi
  have hlen : (dispTimes st).length =
      st.done.length + (st.cur.map Prod.snd).toList.length := by
    simp [dispTimes]
  have hcur1 : (st.cur.map Prod.snd).toList.length ≤ 1 := by
    cases st.cur <;> simp
  by_cases hiL : i + 1 < st.done.length
  · have hIi : i < st.done.length := by omega
    have hdi : (dispTimes st)[i]? = some (st.done.get ⟨i, hIi⟩).dispT := by
      unfold dispTimes
      rw [List.getElem?_append_left (by simpa using hIi)]
      simp [List.getElem?_eq_getElem hIi]
    have hsi : (settleTimes st)[i]? = some (st.done.get ⟨i, hIi⟩).settleT := by
      unfold settleTimes
      simp [List.getElem?_eq_getElem hIi]
    have hdi1 : (dispTimes st)[i + 1]? = some (st.done.get ⟨i + 1, hiL⟩).dispT := by
      unfold dispTimes
      rw [List.getElem?_append_left (by simpa using hiL)]
      simp [List.getElem?_eq_getElem hiL]
    refine ⟨_, _, _, hdi, hsi, hdi1, ?_, ?_⟩
    · exact spacedFrom_mem inv.spaced _ (List.get_mem st.done i hIi)
    · exact spacedFrom_pair inv.spaced i _ _
        (by simp [List.getElem?_eq_getElem hIi])
        (by simp [List.getElem?_eq_getElem hiL])
  · have hcur : ∃ jc dc, st.cur = some (jc, dc) := by
      cases hc : st.cur with
      | none => rw [hc] at hlen; simp at hlen; omega
      | some jd =>
        obtain ⟨jc, dc⟩ := jd
        exact ⟨jc, dc, rfl⟩
    rcases hcur with ⟨jc, dc, hc⟩
    have hL : i + 1 = st.done.length := by
      rw [hc] at hlen; simp at hlen; omega
    have hIi : i < st.done.length := by omega
    have hdi : (dispTimes st)[i]? = some (st.done.get ⟨i, hIi⟩).dispT := by
      unfold dispTimes
      rw [List.getElem?_append_left (by simpa using hIi)]
      simp [List.getElem?_eq_getElem hIi]
    have hsi : (settleTimes st)[i]? = some (st.done.get ⟨i, hIi⟩).settleT := by
      unfold settleTimes
      simp [List.getElem?_eq_getElem hIi]
    have hdi1 : (dispTimes st)[i + 1]? = some dc := by
      unfold dispTimes
      rw [List.getElem?_append_right (by simp; omega)]
      simp [hc, hL]
    refine ⟨_, _, _, hdi, hsi, hdi1, ?_, ?_⟩
    · exact spacedFrom_mem inv.spaced _ (List.get_mem st.done i hIi)
    · have hlast : st.done.getLast? = some (st.done.get ⟨i, hIi⟩) := by
        rw [List.getLast?_eq_getElem?]
        have : st.done.length - 1 = i := by omega
        rw [this]
        simp [List.getElem?_eq_getElem hIi]
      have hnd : nextDispatchLo gap st.done = (st.done.get ⟨i, hIi⟩).settleT + gap := by
        simp [nextDispatchLo, hlast]
      have := (inv.cur_ok jc dc hc).1
      rw [hnd] at this
      exact this

/-- Claim C1: for every profile URL on which scrapeLinkedInProfile
succeeds, the returned value is a flat record with exactly the fields
name, title, location, skills, certifications, companies, education,
profilePictureUrl and connections.  The code contradicts the field list:
the returned object literal names its eighth property `profilepicture`
(the undeclared identifier of scraper.js line 200), so a successful run —
possible only on a page carrying a window binding of that name — yields a
record with a `profilepicture` field holding that binding and no
`profilePictureUrl` field at all.  This theorem evaluates the embedding
on such a page. -/
theorem C1_record_fields :
    okKeys (scrapeLinkedInProfile envPicGlobal "https://linkedin.com/in/jane").2 =
      some ["name", "title", "location", "skills", "certifications", "companies",
        "education", "profilepicture", "connections"] ∧
    okKeys (scrapeLinkedInProfile envPicGlobal "https://linkedin.com/in/jane").2 ≠
      some specProfileKeys ∧
    specProfileKeys[7]? = some "profilePictureUrl" :=
  ⟨rfl, by decide, rfl⟩

/-- Claim C2: the returned object literal references the identifier
`profilepicture` while the local variable is `profilePicture`, so on every
page with no binding of that name in scope the evaluation throws a
ReferenceError and scrapeLinkedInProfile always rejects with a wrapped
error, never returning a successful result on such pages. -/
theorem C2_profilepicture_reference (env : Env) (url : String)
    (hglob : env.page.globals "profilepicture" = none) :
    evalProfile env.page = Except.error "profilepicture is not defined" ∧
    (∀ obj, (scrapeLinkedInProfile env url).2 ≠ Except.ok obj) ∧
    (env.launchError = none → env.failAt = none →
      (scrapeLinkedInProfile env url).2 =
        Except.error "Scraping failed: profilepicture is not defined") := by
  have heval : evalProfile env.page = Except.error "profilepicture is not defined" := by
    unfold evalProfile
    rw [hglob]
  refine ⟨heval, ?_, ?_⟩
  · intro obj hok
    have h3 := (scrape_ok_implies env url obj hok).2.2
    rw [heval] at h3
    cases h3
  · intro h1 h2
    rw [scrape_clean env url h1 h2]
    simp only [heval]
    rfl

/-- Claim C2 witness: a concrete page without the `profilepicture`
binding, where the run rejects with the wrapped ReferenceError. -/
theorem C2_profilepicture_reference_witness :
    (scrapeLinkedInProfile envNoPic "u").2 =
      Except.error "Scraping failed: profilepicture is not defined" :=
  (C2_profilepicture_reference envNoPic "u" rfl).2.2 rfl rfl

/-- Claim C3 counterexample: on a document where the first profile picture
candidate matches an element carrying no src attribute and the second
matches one whose src is pic.jpg, the code returns the attribute of the
later candidate, while the claim as stated — the trimmed text or requested
attribute of the first element found by any candidate — yields null, the
first found element having no src. -/
theorem C3_first_match_cex :
    getAttributeBySelectors cexAttrDom profilePictureSelectors "src" =
      some "pic.jpg" ∧
    specAttrOfFirstFound cexAttrDom profilePictureSelectors "src" = none ∧
    (firstFoundElement cexAttrDom profilePictureSelectors).isSome = true :=
  ⟨by decide, by decide, by decide⟩

/-- Claim C3 amended: for text-valued single fields the first element
found by any candidate wins and its trimmed text is returned, null when
no candidate matches; for attribute-valued fields candidates are tried in
listed order but a matched element whose attribute is absent or empty is
skipped, so the first present non-empty attribute value wins, and the
result is null — never an error — when no candidate yields one. -/
theorem C3_single_value_amended (dom : Dom) (sels : List String) (attr : String) :
    getTextBySelectors dom sels =
      (firstFoundElement dom sels).map (fun e => jsTrim e.textContent) ∧
    getAttributeBySelectors dom sels attr = firstTruthyAttr dom sels attr ∧
    (firstFoundElement dom sels = none →
      getTextBySelectors dom sels = none ∧
      getAttributeBySelectors dom sels attr = none) := by
  refine ⟨getText_eq_firstFound dom sels, getAttr_eq_firstTruthy dom attr sels, ?_⟩
  intro hnone
  constructor
  · rw [getText_eq_firstFound dom sels, hnone]
    rfl
  · rw [getAttr_eq_firstTruthy dom attr sels]
    exact firstTruthyAttr_none dom attr sels hnone

/-- Claim C3 amended witness: the amended attribute rule evaluated on the
counterexample document, where the value of the second candidate wins. -/
theorem C3_single_value_amended_witness :
    getAttributeBySelectors cexAttrDom profilePictureSelectors "src" =
      firstTruthyAttr cexAttrDom profilePictureSelectors "src" ∧
    firstTruthyAttr cexAttrDom profilePictureSelectors "src" = some "pic.jpg" :=
  ⟨(C3_single_value_amended cexAttrDom profilePictureSelectors "src").2.1,
    by decide⟩

/-- Claim C4: for every multi-value field and document, the result is the
union over all candidate selectors of the trimmed non-empty texts of all
matching elements, in discovery order with exact-text duplicates removed;
in the Jane Doe fixture the skills are Go and Rust with the duplicate Go
contributed once. -/
theorem C4_multi_value_union (dom : Dom) (sels : List String) :
    getAllTextsBySelectors dom sels = dedupFirst (discoveredTexts dom sels) ∧
    (getAllTextsBySelectors dom sels).Nodup ∧
    (∀ t, t ∈ getAllTextsBySelectors dom sels ↔
      t ≠ "" ∧ ∃ s ∈ sels, ∃ e ∈ dom.elems s, jsTrim e.textContent = t) ∧
    getAllTextsBySelectors janeDom skillSelectors = ["Go", "Rust"] ∧
    getTextBySelectors janeDom nameSelectors = some "Jane Doe" := by
  refine ⟨getAllTexts_eq_dedup dom sels, ?_, ?_, by decide, by decide⟩
  · rw [getAllTexts_eq_dedup]
    exact foldl_setAdd_nodup _ [] List.nodup_nil
  · intro t
    rw [getAllTexts_eq_dedup]
    unfold dedupFirst
    rw [mem_foldl_setAdd]
    simp only [List.not_mem_nil, false_or]
    exact mem_discoveredTexts dom sels t

/-- Claim C4 witness: the Jane Doe scenario evaluated through the
theorem. -/
theorem C4_multi_value_union_witness :
    getAllTextsBySelectors janeDom skillSelectors = ["Go", "Rust"] :=
  (C4_multi_value_union janeDom skillSelectors).2.2.2.1

/-- Claim C5 counterexample: a connection candidate matches an element
whose trimmed text is empty; the claim as stated then requires the
digit-stripped raw text — the empty string — but the code maps the falsy
raw value to null. -/
theorem C5_connections_cex :
    getTextBySelectors cexConnDom connectionSelectors = some "" ∧
    connectionsValue (getTextBySelectors cexConnDom connectionSelectors) = none ∧
    connectionsValue (getTextBySelectors cexConnDom connectionSelectors) ≠
      some (stripNonDigits "") :=
  ⟨by decide, by decide, by decide⟩

/-- Claim C5 amended: the connections field is always null or a
digits-only string; it is null when no candidate matches and also when
the matched trimmed text is empty; on a matched non-empty text it equals
that text with every non-digit character removed. -/
theorem C5_connections_amended (dom : Dom) :
    (∀ s, connectionsValue (getTextBySelectors dom connectionSelectors) = some s →
      s.data.all Char.isDigit = true) ∧
    (getTextBySelectors dom connectionSelectors = none →
      connectionsValue (getTextBySelectors dom connectionSelectors) = none) ∧
    (getTextBySelectors dom connectionSelectors = some "" →
      connectionsValue (getTextBySelectors dom connectionSelectors) = none) ∧
    (∀ s, getTextBySelectors dom connectionSelectors = some s → s ≠ "" →
      connectionsValue (getTextBySelectors dom connectionSelectors) =
        some (stripNonDigits s)) := by
  refine ⟨?_, ?_, ?_, ?_⟩
  · intro s hs
    cases hraw : getTextBySelectors dom connectionSelectors with
    | none => rw [hraw] at hs; cases hs
    | some r =>
      rw [hraw] at hs
      simp only [connectionsValue] at hs
      by_cases hr : r = ""
      · rw [if_pos hr] at hs; cases hs
      · rw [if_neg hr] at hs
        cases hs
        simp only [stripNonDigits, List.all_eq_true]
        intro c hc
        exact (List.mem_filter.mp hc).2
  · intro h; rw [h]; rfl
  · intro h; rw [h]; rfl
  · intro s hs hne
    rw [hs]
    simp only [connectionsValue]
    rw [if_neg hne]

/-- Claim C5 amended witness: the spec example 500+ connections evaluated
through the theorem. -/
theorem C5_connections_amended_witness :
    connectionsValue (getTextBySelectors connDom500 connectionSelectors) =
      some "500" := by
  have h := (C5_connections_amended connDom500).2.2.2 "500+ connections"
    (by decide) (by decide)
  rw [h]
  rfl

/-- Claim C6: for every execution in which the launch succeeds,
browser.close is invoked exactly once whether the remaining steps succeed
or any of them throws.  The code contradicts this: page creation and
configuration (scraper.js lines 21-36) run before the try block, so when
browser.newPage throws the error propagates with no close at all and the
browser process leaks.  This theorem evaluates the embedding on such an
execution. -/
theorem C6_close_exactly_once :
    envNewPageFails.launchError = none ∧
    (scrapeLinkedInProfile envNewPageFails "u").2 = Except.error "newPage failed" ∧
    countClose (scrapeLinkedInProfile envNewPageFails "u").1 = 0 ∧
    Effect.close ∉ (scrapeLinkedInProfile envNewPageFails "u").1 :=
  ⟨rfl, rfl, by decide, by decide⟩

/-- Claim C7: when navigation or extraction throws, the run rejects with a
single wrapped error whose message incorporates the original one, the
browser is closed exactly once and as the last action before the error
propagates, and no partial record is ever returned. -/
theorem C7_wrapped_after_release (env : Env) (url : String)
    (h1 : env.launchError = none) :
    (∀ m, env.failAt = some (Step.navigation, m) ∨
        env.failAt = some (Step.evalInfra, m) →
      (scrapeLinkedInProfile env url).2 = Except.error ("Scraping failed: " ++ m) ∧
      countClose (scrapeLinkedInProfile env url).1 = 1 ∧
      (scrapeLinkedInProfile env url).1.getLast? = some Effect.close ∧
      ∀ obj, (scrapeLinkedInProfile env url).2 ≠ Except.ok obj) ∧
    (∀ m, env.failAt = none → evalProfile env.page = Except.error m →
      (scrapeLinkedInProfile env url).2 = Except.error ("Scraping failed: " ++ m) ∧
      countClose (scrapeLinkedInProfile env url).1 = 1 ∧
      (scrapeLinkedInProfile env url).1.getLast? = some Effect.close ∧
      ∀ obj, (scrapeLinkedInProfile env url).2 ≠ Except.ok obj) := by
  constructor
  · intro m hf
    rcases hf with hf | hf
    · rw [scrape_navfail env url m h1 hf]
      refine ⟨rfl, by rfl, ?_, ?_⟩
      · rw [show setupEffects ++ [Effect.goto url "domcontentloaded" 30000, Effect.close] =
            (setupEffects ++ [Effect.goto url "domcontentloaded" 30000]) ++
              [Effect.close] by simp]
        exact List.getLast?_concat _
      · intro obj hobj
        cases hobj
    · rw [scrape_evalfail env url m h1 hf]
      refine ⟨rfl, ?_, getLast?_append_two _ _ _, ?_⟩
      · simp only [countClose_append]
        rw [countClose_replicate _ (Effect.scrollTick 100 100) rfl]
        rfl
      · intro obj hobj
        cases hobj
  · intro m h2 heval
    have hres := scrape_clean env url h1 h2
    have h2nd : (scrapeLinkedInProfile env url).2 =
        Except.error ("Scraping failed: " ++ m) := by
      rw [hres, heval]
    have h1st := congrArg Prod.fst hres
    refine ⟨h2nd, ?_, ?_, ?_⟩
    · rw [h1st]
      simp only [countClose_append]
      rw [countClose_replicate _ (Effect.scrollTick 100 100) rfl]
      rfl
    · rw [h1st]
      exact getLast?_append_two _ _ _
    · intro obj hobj
      rw [h2nd] at hobj
      cases hobj

/-- Claim C7 witness: a concrete navigation failure, wrapped and rejected
after a single close. -/
theorem C7_wrapped_after_release_witness :
    (scrapeLinkedInProfile envNavFails "u").2 =
      Except.error "Scraping failed: nav timeout" ∧
    countClose (scrapeLinkedInProfile envNavFails "u").1 = 1 := by
  have h := (C7_wrapped_after_release envNavFails "u" rfl).1 "nav timeout" (Or.inl rfl)
  exact ⟨h.1, h.2.1⟩

/-- Claim C8: in every reachable state of a scheduler, handles are
numbered 0, 1, ... in enqueue order and all distinct; jobs are dispatched
in exactly FIFO enqueue order with no reordering; a running job keeps the
in-flight flag set, so no second job can be dispatched beside it; and an
enqueue at any current-or-later time always succeeds immediately with a
fresh distinct handle, merely queueing when a job is in flight. -/
theorem C8_scheduler_fifo (rpm : Nat) (evs : List Ev) (st : RLState) (now : Nat)
    (h : rlRun rpm evs = some (st, now)) :
    allIds st = List.range st.nextId ∧
    (allIds st).Nodup ∧
    dispatchedIds st = List.range (dispatchedIds st).length ∧
    (st.cur.isSome = true → st.isProcessing = true) ∧
    (∀ t, now ≤ t → st.nextId ∉ allIds st ∧
      ∃ st2, rlStep rpm (st, now) (Ev.enqueue t) = some (st2, t) ∧
        st2.nextId = st.nextId + 1 ∧
        allIds st2 = allIds st ++ [st.nextId] ∧
        (st.isProcessing = true →
          st2.cur = st.cur ∧ st2.done = st.done ∧
          st2.queue = st.queue ++ [st.nextId])) := by
  have inv := rlRun_inv h
  refine ⟨inv.ids, ?_, ?_, ?_, ?_⟩
  · rw [inv.ids]
    exact List.nodup_range _
  · have hsplit : dispatchedIds st ++ st.queue = List.range st.nextId := by
      simpa [allIds, dispatchedIds, List.append_assoc] using inv.ids
    exact prefix_range hsplit
  · intro hc
    rw [inv.proc, hc]
    rfl
  · intro t ht
    constructor
    · rw [inv.ids]
      simp
    · refine ⟨processQueue t { st with nextId := st.nextId + 1, queue := st.queue ++ [st.nextId] }, ?_, ?_, ?_, ?_⟩
      · simp only [rlStep]
        rw [if_neg (Nat.not_lt.mpr ht)]
      · rw [processQueue_nextId]
      · rw [processQueue_allIds t _ ?_]
        · simp [allIds, List.append_assoc]
        · intro hp
          replace hp : st.isProcessing = false := hp
          have hpr := inv.proc
          rw [hp] at hpr
          cases hcu : st.cur with
          | none => rfl
          | some p =>
            rw [hcu] at hpr
            simp at hpr
      · intro hp
        rw [processQueue_of_processing t _ (by simpa using hp)]
        exact ⟨rfl, rfl, rfl⟩

/-- Claim C8 witness: the three-job trace, whose final state shows handles
0, 1, 2 dispatched in FIFO order. -/
theorem C8_scheduler_fifo_witness :
    allIds st9 = [0, 1, 2] ∧ dispatchedIds st9 = [0, 1, 2] := by
  have h := C8_scheduler_fifo 2 evs9 st9 60010 rfl
  constructor
  · rw [h.1]
    decide
  · rw [h.2.2.1]
    decide

/-- Claim C9: after a job settles — successfully or not, with the outcome
delivered to its own handle — the scheduler waits 60000 / rpm
milliseconds from the settlement time, never earlier than the dispatch,
before dispatching the next job; with rpm = 2 the third dispatch is at
least 30 seconds after the first; and a failing settlement yields the
same successor state as a succeeding one apart from the recorded outcome,
so a failed job never blocks later jobs. -/
theorem C9_cooldown_spacing (rpm : Nat) (evs : List Ev) (st : RLState) (now : Nat)
    (h : rlRun rpm evs = some (st, now)) :
    (∀ i, i + 1 < (dispTimes st).length →
      ∃ d1 s1 d2, (dispTimes st)[i]? = some d1 ∧ (settleTimes st)[i]? = some s1 ∧
        (dispTimes st)[i + 1]? = some d2 ∧ d1 ≤ s1 ∧ s1 + 60000 / rpm ≤ d2) ∧
    (rpm = 2 → ∀ d1 d3, (dispTimes st)[0]? = some d1 →
      (dispTimes st)[2]? = some d3 → d1 + 30000 ≤ d3) ∧
    (∀ p t ok, (rlStep rpm p (Ev.settle t ok)).map
        (fun q => (forgetOutcomes q.1, q.2)) =
      (rlStep rpm p (Ev.settle t true)).map (fun q => (forgetOutcomes q.1, q.2))) := by
  have inv := rlRun_inv h
  replace inv : RLInv (60000 / rpm) st now := inv
  have pair := rlInv_pairSpacing inv
  refine ⟨pair, ?_, fun p t ok => rlStep_settle_outcome rpm p t ok⟩
  intro hrpm d1 d3 h0 h2
  subst hrpm
  have hlen : 2 < (dispTimes st).length := by
    rcases List.getElem?_eq_some_iff.mp h2 with ⟨hl, _⟩
    exact hl
  rcases pair 0 (by omega) with ⟨a1, b1, c1, ha1, hb1, hc1, hab1, hbc1⟩
  rcases pair 1 (by omega) with ⟨a2, b2, c2, ha2, hb2, hc2, hab2, hbc2⟩
  have e1 : a1 = d1 := by
    rw [h0] at ha1
    exact (Option.some.inj ha1).symm
  have e2 : c1 = a2 := by
    rw [show (0 : Nat) + 1 = 1 from rfl, ha2] at hc1
    exact (Option.some.inj hc1).symm
  have e3 : c2 = d3 := by
    rw [show (1 : Nat) + 1 = 2 from rfl, h2] at hc2
    exact (Option.some.inj hc2).symm
  omega

/-- Claim C9 witness: in the three-job trace with two requests per minute,
the first dispatch is at time 0 and the third at time 60010, at least 30
seconds later. -/
theorem C9_cooldown_spacing_witness :
    (dispTimes st9)[0]? = some 0 ∧ (dispTimes st9)[2]? = some 60010 ∧
    (0 : Nat) + 30000 ≤ 60010 := by
  refine ⟨by decide, by decide, ?_⟩
  exact (C9_cooldown_spacing 2 evs9 st9 60010 rfl).2.1 rfl 0 60010
    (by decide) (by decide)

/-- Claim C10: in a run whose launch and setup succeed, the navigation
performs in order: the page load waiting only for DOM construction under
the 30 second timeout — a timeout aborts with no extraction attempt —
then a randomized delay of 2000 to 4999 milliseconds, then the auto-scroll
loop of 100 pixels every 100 milliseconds stopping as soon as the
accumulated distance reaches the current document scroll height or the
3000 pixel cap (hence within 30 ticks, and at the first tick where the
condition holds), then a scroll back to the top and a 3 second settle
wait, and only then the extraction. -/
theorem C10_navigation_order (env : Env) (url : String)
    (h1 : env.launchError = none) :
    (env.failAt = none →
      (scrapeLinkedInProfile env url).1 =
        setupEffects ++
        [Effect.goto url "domcontentloaded" 30000,
         Effect.wait (2000 + env.rand.val)] ++
        List.replicate (autoScrollTicks env.scrollHeights)
          (Effect.scrollTick 100 100) ++
        [Effect.scrollTop, Effect.wait 3000, Effect.evaluate, Effect.close] ∧
      2000 ≤ 2000 + env.rand.val ∧ 2000 + env.rand.val ≤ 4999 ∧
      1 ≤ autoScrollTicks env.scrollHeights ∧
      autoScrollTicks env.scrollHeights ≤ 30 ∧
      (100 * autoScrollTicks env.scrollHeights ≥
          env.scrollHeights (autoScrollTicks env.scrollHeights - 1) ∨
        100 * autoScrollTicks env.scrollHeights ≥ 3000) ∧
      (∀ j, j + 1 < autoScrollTicks env.scrollHeights →
        ¬(100 * (j + 1) ≥ env.scrollHeights j ∨ 100 * (j + 1) ≥ 3000))) ∧
    (∀ m, env.failAt = some (Step.navigation, m) →
      (scrapeLinkedInProfile env url).1 =
        setupEffects ++ [Effect.goto url "domcontentloaded" 30000, Effect.close] ∧
      Effect.evaluate ∉ (scrapeLinkedInProfile env url).1) := by
  constructor
  · intro h2
    rcases autoScrollTicks_spec env.scrollHeights with ⟨a, b, c, d⟩
    have htr := congrArg Prod.fst (scrape_clean env url h1 h2)
    have hrand := env.rand.isLt
    refine ⟨?_, by omega, by omega, a, b, c, d⟩
    rw [htr]
    simp [List.append_assoc]
  · intro m hf
    have htr := congrArg Prod.fst (scrape_navfail env url m h1 hf)
    refine ⟨htr, ?_⟩
    rw [htr]
    simp [setupEffects]

/-- Claim C10 witness: a concrete clean run, with zero random draw and a
zero-height document, whose trace is exactly the claimed sequence with a
single scroll tick. -/
theorem C10_navigation_order_witness :
    (scrapeLinkedInProfile envNoPic "u").1 =
      setupEffects ++
      [Effect.goto "u" "domcontentloaded" 30000, Effect.wait 2000] ++
      List.replicate 1 (Effect.scrollTick 100 100) ++
      [Effect.scrollTop, Effect.wait 3000, Effect.evaluate, Effect.close] := by
  have h := ((C10_navigation_order envNoPic "u" rfl).1 rfl).1
  rw [h]
  decide

end Skillarly
